import Mathlib

/-!
# Inspector target bridges of React Native (Android)

A shallow embedding of

* `ReactAndroid/src/main/jni/react/jni/ReactInstanceManagerInspectorTarget.cpp`
  (the bridge variant) and
* `ReactAndroid/src/main/jni/react/runtime/jni/JReactHostInspectorTarget.cpp`
  (the bridgeless variant).

Every native method becomes a function on an explicit `World`, the state of the
collaborators the two classes talk to: the inspector flags, the page registry,
the shared ownership of the `HostTarget`, the host executor, and a log of the
calls that leave the class.  A method that can leave by exception returns
`Except Failure _`.
-/

namespace facebook.react

/-! ## Data model -/

/-- A Java `Map<String, String>` as observed through `Map.get`: the value bound
to a key, or null when there is none. -/
abbrev JMap := List (String × String)

/-- The ways a native method leaves without returning normally. -/
inductive Failure where
  /-- `jni::throwNewJavaException("java/lang/IllegalStateException", message)`. -/
  | illegalStateException (message : String)
  /-- A Java method was invoked through a null JNI reference. -/
  | nullReference
  deriving DecidableEq, Repr

/-- The commands of `HostCommand` that the sources name. -/
inductive HostCommand where
  | DebuggerResume
  deriving DecidableEq, Repr

/-- The argument of `onReload`; neither class reads it, so only its identity is
kept. -/
structure PageReloadRequest where
  tag : Nat
  deriving DecidableEq, Repr

/-- The argument of `onSetPausedInDebuggerMessage`: `request.message` is a
`std::optional<std::string>`. -/
structure OverlaySetPausedInDebuggerMessageRequest where
  message : Option String
  deriving DecidableEq, Repr

/-- The aggregate returned by `getMetadata()`, with the fields the designated
initialisers of the sources name. -/
structure HostTargetMetadata where
  appIdentifier : Option String
  deviceName : Option String
  integrationName : String
  platform : Option String
  reactNativeVersion : Option String
  deriving DecidableEq, Repr

/-- The capability flags passed to `addPage`. -/
structure InspectorTargetCapabilities where
  nativePageReloads : Bool
  prefersFuseboxFrontend : Bool
  deriving DecidableEq, Repr

/-- The two connect callbacks handed to `addPage`, as closures stripped of their
code: what distinguishes them is how they hold the target handle. -/
inductive ConnectFunc where
  /-- `[inspectorTarget = inspectorTarget_]`: a copy of the `shared_ptr`. -/
  | strongCapture
  /-- `[inspectorTargetWeak = std::weak_ptr(inspectorTarget_)]`. -/
  | weakCapture
  deriving DecidableEq, Repr

/-- An `IRemoteConnection` handed in by a debugger frontend. -/
abbrev RemoteConnection := Nat

/-- An `ILocalConnection` handed back by `HostTarget::connect`. -/
abbrev LocalConnection := Nat

/-- A `std::function<void()>` given to the executor, known by its identity. -/
abbrev Callback := Nat

/-- The object built by `JNativeRunnable::newObjectCxxArgs(std::move(callback))`:
a Java `Runnable` whose `run()` invokes the callback it owns. -/
structure JNativeRunnable where
  callback : Callback
  deriving DecidableEq, Repr

/-- The Java object behind `TargetDelegate` (bridge variant), reduced to what
the native side reads from it: the map its `getMetadata()` reports. The Java
methods themselves are taken to return normally, and the accessor to return a
map rather than null. -/
structure TargetDelegate where
  metadata : JMap
  deriving DecidableEq, Repr

/-- The Java `ReactHostImpl` (bridgeless variant), reduced to the map its
`getHostMetadata()` reports. The Java methods themselves are taken to return
normally, and the accessor to return a map rather than null. -/
structure ReactHostImpl where
  hostMetadata : JMap
  deriving DecidableEq, Repr

/-- The Java `Executor` of the host thread. There is one per world; its queue
lives in `World.executor`. -/
inductive JExecutor where
  | hostThread
  deriving DecidableEq, Repr

/-- The `HostTarget` created by `HostTarget::create`. A bridge creates at most
one, so it carries no further identity; its ownership count lives in
`World.targetStrong`. -/
inductive HostTarget where
  | created
  deriving DecidableEq, Repr

/-- A call that leaves the class under study. -/
inductive Event where
  /-- `HostTarget::create(*this, executor)`. -/
  | hostTargetCreate
  /-- `getInspectorInstance().addPage(title, vm, connectFunc, capabilities)`,
  with the page id the registry returned. -/
  | addPage (title vm : String) (connectFunc : ConnectFunc)
      (capabilities : InspectorTargetCapabilities) (returned : Int)
  /-- `getInspectorInstance().removePage(pageId)`. -/
  | removePage (pageId : Int)
  /-- `inspectorTarget_->sendCommand(command)`. -/
  | sendCommand (command : HostCommand)
  /-- `inspectorTarget->connect(std::move(remote))`. -/
  | targetConnect (remote : RemoteConnection)
  /-- The bridge object gives up its `shared_ptr<HostTarget>` member. -/
  | releaseTargetMember
  /-- Java `TargetDelegate.onReload()`. -/
  | delegateOnReload
  /-- Java `TargetDelegate.onSetPausedInDebuggerMessage(message)`; `none` is a
  null `String`. -/
  | delegateOnSetPausedInDebuggerMessage (message : Option String)
  /-- Java `TargetDelegate.getMetadata()`. -/
  | delegateGetMetadata
  /-- Java `ReactHostImpl.reload(reason)`. -/
  | hostReload (reason : String)
  /-- Java `ReactHostImpl.setPausedInDebuggerMessage(message)`. -/
  | hostSetPausedInDebuggerMessage (message : Option String)
  /-- Java `ReactHostImpl.getHostMetadata()`. -/
  | hostGetHostMetadata
  /-- Java `Executor.execute(runnable)` on the host executor. -/
  | executorExecute (runnable : JNativeRunnable)
  deriving DecidableEq, Repr

/-- A page held by the registry. -/
structure Page where
  id : Int
  title : String
  vm : String
  connectFunc : ConnectFunc
  capabilities : InspectorTargetCapabilities
  deriving DecidableEq, Repr

/-- The host executor taken as a single serial queue: `execute` appends, the
host thread later runs the queue from the front. `ran` lists the callbacks that
have been invoked, oldest first. -/
structure HostExecutor where
  queue : List JNativeRunnable
  ran : List Callback
  deriving DecidableEq, Repr

/-- The state of everything outside the bridge object. -/
structure World where
  /-- `InspectorFlags::getInstance().getFuseboxEnabled()`. -/
  fuseboxEnabled : Bool
  /-- The id the registry hands out at the next `addPage`. -/
  nextPageId : Int
  /-- The pages the registry holds. -/
  pages : List Page
  /-- The number of `shared_ptr`s that own the bridge's `HostTarget`. -/
  targetStrong : Nat
  /-- The host executor. -/
  executor : HostExecutor
  /-- Every call made so far, oldest first. -/
  log : List Event
  deriving DecidableEq, Repr

/-- Append a call to the log. -/
def World.emit (w : World) (e : Event) : World :=
  { w with log := w.log ++ [e] }

/-! ## Collaborators -/

/-- `HostTarget::create`: a fresh target owned by the one `shared_ptr` that is
returned. -/
def HostTarget.create (w : World) : HostTarget × World :=
  (HostTarget.created, { w with targetStrong := 1, log := w.log ++ [Event.hostTargetCreate] })

/-- The owners a connect callback adds to the target while the registry holds
it. -/
def ConnectFunc.owners : ConnectFunc → Nat
  | .strongCapture => 1
  | .weakCapture => 0

/-- Modelled from the spec: the page registry (`getInspectorInstance()`) is not
among the sources. `addPage` stores the page with its connect callback and
returns a page identifier; a callback that captured the `shared_ptr` by copy
owns the target for as long as the registry keeps it. -/
def addPage (title vm : String) (connectFunc : ConnectFunc)
    (capabilities : InspectorTargetCapabilities) (w : World) : Int × World :=
  (w.nextPageId,
    { w with
      nextPageId := w.nextPageId + 1
      pages := w.pages ++ [⟨w.nextPageId, title, vm, connectFunc, capabilities⟩]
      targetStrong := w.targetStrong + connectFunc.owners
      log := w.log ++ [Event.addPage title vm connectFunc capabilities w.nextPageId] })

/-- Modelled from the spec: `removePage` of the page registry. The page and
the connect callback stored with it are dropped, and with the callback the
ownership it held. -/
def removePage (pageId : Int) (w : World) : World :=
  { w with
    pages := w.pages.filter (fun p => p.id != pageId)
    targetStrong :=
      w.targetStrong - ((w.pages.filter (fun p => p.id == pageId)).map (fun p => p.connectFunc.owners)).sum
    log := w.log ++ [Event.removePage pageId] }

/-- `method(self(), ...)` of fbjni: the Java method is invoked on the object
the reference is bound to. With a null receiver the invocation does not return
normally. -/
def callJava {α : Type} (self : Option α) (e : Event) (w : World) : Except Failure (α × World) :=
  match self with
  | none => .error Failure.nullReference
  | some obj => .ok (obj, w.emit e)

/-- Modelled from the spec: `JExecutor::execute` is declared in `JExecutor.h`,
which is not among the sources. The runnable is handed to the host executor,
which queues it; on a released executor the submission is silently dropped. -/
def JExecutor.execute (self : Option JExecutor) (jrunnable : JNativeRunnable) (w : World) : World :=
  match self with
  | none => w
  | some _ =>
    { w with
      executor := { w.executor with queue := w.executor.queue ++ [jrunnable] }
      log := w.log ++ [Event.executorExecute jrunnable] }

/-- The world a bridge is constructed in: the flag as the process has it, a
registry that holds no page yet and will answer the next `addPage` with
`firstPageId`, no target, an idle executor, an empty log. -/
def World.initial (fuseboxEnabled : Bool) (firstPageId : Int) : World :=
  { fuseboxEnabled := fuseboxEnabled
    nextPageId := firstPageId
    pages := []
    targetStrong := 0
    executor := { queue := [], ran := [] }
    log := [] }

/-- The host thread takes the runnable at the front of the queue and runs it:
`JNativeRunnable.run()` invokes the wrapped callback. -/
def HostExecutor.runNext (e : HostExecutor) : HostExecutor :=
  match e.queue with
  | [] => e
  | r :: rest => { queue := rest, ran := e.ran ++ [r.callback] }

/-- The host thread runs `n` queued runnables, front first. -/
def HostExecutor.runMany : Nat → HostExecutor → HostExecutor
  | 0, e => e
  | n + 1, e => HostExecutor.runMany n e.runNext

/-- The host thread runs everything that is queued. -/
def HostExecutor.drain (e : HostExecutor) : HostExecutor :=
  HostExecutor.runMany e.queue.length e

/-- The operations a live bridge object receives between construction and
destruction. -/
inductive Op where
  | sendDebuggerResumeCommand
  | getMetadata
  | onReload (request : PageReloadRequest)
  | onSetPausedInDebuggerMessage (request : OverlaySetPausedInDebuggerMessageRequest)
  | getInspectorTarget
  deriving DecidableEq, Repr

/-- The world after a call: the one the call produced when it returned
normally, the one before it when it left by exception. -/
def settle {α : Type} (w : World) (r : Except Failure α) (after : α → World) : World :=
  match r with
  | .ok a => after a
  | .error _ => w

/-- Whether a call is `addPage`. -/
def Event.isAddPage : Event → Bool
  | .addPage _ _ _ _ _ => true
  | _ => false

/-- Whether a call is `removePage`. -/
def Event.isRemovePage : Event → Bool
  | .removePage _ => true
  | _ => false

/-! ## Bridge variant: `ReactInstanceManagerInspectorTarget.cpp` -/

/-- `TargetDelegate::onReload`: `method(self())` on Java `onReload`. -/
def TargetDelegate.onReload (self : Option TargetDelegate) (w : World) : Except Failure World :=
  (callJava self Event.delegateOnReload w).map Prod.snd

/-- `TargetDelegate::onSetPausedInDebuggerMessage`: the Java method receives
`make_jstring(*request.message)` when the message is there, `nullptr` when not. -/
def TargetDelegate.onSetPausedInDebuggerMessage (self : Option TargetDelegate)
    (request : OverlaySetPausedInDebuggerMessageRequest) (w : World) : Except Failure World :=
  (callJava self
    (Event.delegateOnSetPausedInDebuggerMessage
      (match request.message with
       | some message => some message
       | none => none)) w).map Prod.snd

/-- `TargetDelegate::getMetadata`: the map returned by Java `getMetadata`. -/
def TargetDelegate.getMetadata (self : Option TargetDelegate) (w : World) :
    Except Failure (JMap × World) :=
  (callJava self Event.delegateGetMetadata w).map (fun r => (r.1.metadata, r.2))

/-- The members of `ReactInstanceManagerInspectorTarget`. -/
structure ReactInstanceManagerInspectorTarget where
  /-- `make_global(delegate)`; `none` is the null reference. -/
  delegate_ : Option TargetDelegate
  /-- The `shared_ptr<HostTarget>`; `none` is the empty pointer. -/
  inspectorTarget_ : Option HostTarget
  /-- The `std::optional` page id. -/
  inspectorPageId_ : Option Int
  deriving DecidableEq, Repr

namespace ReactInstanceManagerInspectorTarget

/-- The executor lambda handed to `HostTarget::create`, with its capture
`javaExecutor = SafeReleaseJniRef(make_global(executor))`. -/
structure ExecutorAdapter where
  javaExecutor : Option JExecutor
  deriving DecidableEq, Repr

/-- The body of the executor lambda: wrap the callback in a `JNativeRunnable`
and pass it to `javaExecutor->execute`. -/
def ExecutorAdapter.call (self : ExecutorAdapter) (callback : Callback) (w : World) : World :=
  let jrunnable : JNativeRunnable := ⟨callback⟩
  JExecutor.execute self.javaExecutor jrunnable w

/-- The constructor. -/
def construct (executor : Option JExecutor) (delegate : Option TargetDelegate) (w : World) :
    ReactInstanceManagerInspectorTarget × ExecutorAdapter × World :=
  let adapter : ExecutorAdapter := ⟨executor⟩
  if w.fuseboxEnabled then
    let (target, w1) := HostTarget.create w
    let (pageId, w2) :=
      addPage "React Native Bridge (Experimental)" "" ConnectFunc.strongCapture
        { nativePageReloads := true, prefersFuseboxFrontend := true } w1
    ({ delegate_ := delegate, inspectorTarget_ := some target, inspectorPageId_ := some pageId },
      adapter, w2)
  else
    ({ delegate_ := delegate, inspectorTarget_ := none, inspectorPageId_ := none }, adapter, w)

/-- The connect callback stored with the page: it owns a copy of the
`shared_ptr` and goes straight to `inspectorTarget->connect`. -/
def connectCallback (targetConnect : RemoteConnection → Option LocalConnection)
    (remote : RemoteConnection) (w : World) : Option LocalConnection × World :=
  (targetConnect remote, w.emit (Event.targetConnect remote))

/-- The body of the destructor. -/
def destructorBody (self : ReactInstanceManagerInspectorTarget) (w : World) : World :=
  match self.inspectorPageId_ with
  | some pageId => removePage pageId w
  | none => w

/-- What follows the destructor body: the members are destroyed, and with
`inspectorTarget_` the bridge gives up its ownership of the target. -/
def destroyMembers (self : ReactInstanceManagerInspectorTarget) (w : World) : World :=
  match self.inspectorTarget_ with
  | some _ => { w with targetStrong := w.targetStrong - 1, log := w.log ++ [Event.releaseTargetMember] }
  | none => w

/-- Destruction of the object: destructor body, then the members. -/
def destroy (self : ReactInstanceManagerInspectorTarget) (w : World) : World :=
  destroyMembers self (destructorBody self w)

/-- `sendDebuggerResumeCommand()`. -/
def sendDebuggerResumeCommand (self : ReactInstanceManagerInspectorTarget) (w : World) :
    Except Failure World :=
  match self.inspectorTarget_ with
  | some _ => .ok (w.emit (Event.sendCommand HostCommand.DebuggerResume))
  | none =>
    .error (Failure.illegalStateException
      "Cannot send command while the Fusebox backend is not enabled")

/-- `getMetadata()`. -/
def getMetadata (self : ReactInstanceManagerInspectorTarget) (w : World) :
    Except Failure (HostTargetMetadata × World) :=
  match TargetDelegate.getMetadata self.delegate_ w with
  | .error f => .error f
  | .ok (metadata, w1) =>
    let getStringOptional := fun (key : String) => metadata.lookup key
    .ok ({ appIdentifier := getStringOptional "appIdentifier"
           deviceName := getStringOptional "deviceName"
           integrationName := "Android Bridge (ReactInstanceManagerInspectorTarget)"
           platform := getStringOptional "platform"
           reactNativeVersion := getStringOptional "reactNativeVersion" }, w1)

/-- `onReload(request)`; the request is not read. -/
def onReload (self : ReactInstanceManagerInspectorTarget) (_request : PageReloadRequest)
    (w : World) : Except Failure World :=
  TargetDelegate.onReload self.delegate_ w

/-- `onSetPausedInDebuggerMessage(request)`. -/
def onSetPausedInDebuggerMessage (self : ReactInstanceManagerInspectorTarget)
    (request : OverlaySetPausedInDebuggerMessageRequest) (w : World) : Except Failure World :=
  TargetDelegate.onSetPausedInDebuggerMessage self.delegate_ request w

/-- `getInspectorTarget()`: `inspectorTarget_.get()`. -/
def getInspectorTarget (self : ReactInstanceManagerInspectorTarget) : Option HostTarget :=
  self.inspectorTarget_

/-- One operation on a live bridge. -/
def step (self : ReactInstanceManagerInspectorTarget) (op : Op) (w : World) : World :=
  match op with
  | .sendDebuggerResumeCommand => settle w (sendDebuggerResumeCommand self w) id
  | .getMetadata => settle w (getMetadata self w) Prod.snd
  | .onReload request => settle w (onReload self request w) id
  | .onSetPausedInDebuggerMessage request => settle w (onSetPausedInDebuggerMessage self request w) id
  | .getInspectorTarget => w

/-- A sequence of operations on a live bridge, first to last. -/
def runOps (self : ReactInstanceManagerInspectorTarget) (ops : List Op) (w : World) : World :=
  ops.foldl (fun acc op => step self op acc) w

end ReactInstanceManagerInspectorTarget

/-! ## Bridgeless variant: `JReactHostInspectorTarget.cpp` -/

/-- Modelled from the spec: the type behind `javaReactHostImpl_` is declared in
`JReactHostInspectorTarget.h`, which is not among the sources. `get()` returns
the live reference if the host has not been released, an absent value
otherwise. -/
def JReactHostImpl.get (self : Option ReactHostImpl) : Option ReactHostImpl :=
  self

/-- Modelled from the spec: `reload` of the host reference (declared in
`JReactHostInspectorTarget.h`). It triggers the reload entry point of the host
with the reason; when the host reference is absent the notification is
silently dropped. -/
def JReactHostImpl.reload (self : Option ReactHostImpl) (reason : String) (w : World) : World :=
  match JReactHostImpl.get self with
  | some _ => w.emit (Event.hostReload reason)
  | none => w

/-- Modelled from the spec: `setPausedInDebuggerMessage` of the host reference
(declared in `JReactHostInspectorTarget.h`). It forwards the optional message
to the host; when the host reference is absent the notification is silently
dropped. -/
def JReactHostImpl.setPausedInDebuggerMessage (self : Option ReactHostImpl)
    (message : Option String) (w : World) : World :=
  match JReactHostImpl.get self with
  | some _ => w.emit (Event.hostSetPausedInDebuggerMessage message)
  | none => w

/-- Modelled from the spec: `getHostMetadata` of a live host (declared in
`JReactHostInspectorTarget.h`): the metadata accessor of the host, returning a
string-to-string mapping. -/
def JReactHostImpl.getHostMetadata (host : ReactHostImpl) (w : World) : JMap × World :=
  (host.hostMetadata, w.emit Event.hostGetHostMetadata)

/-- The members of `JReactHostInspectorTarget`. -/
structure JReactHostInspectorTarget where
  /-- `make_global(reactHostImpl)`; `none` is the absent reference. -/
  javaReactHostImpl_ : Option ReactHostImpl
  /-- `make_global(executor)`. -/
  javaExecutor_ : Option JExecutor
  /-- The `shared_ptr<HostTarget>`; `none` is the empty pointer. -/
  inspectorTarget_ : Option HostTarget
  /-- The `std::optional` page id. -/
  inspectorPageId_ : Option Int
  deriving DecidableEq, Repr

namespace JReactHostInspectorTarget

/-- The executor lambda handed to `HostTarget::create`, with its capture
`javaExecutor = SafeReleaseJniRef(javaExecutor_)`. -/
structure ExecutorAdapter where
  javaExecutor : Option JExecutor
  deriving DecidableEq, Repr

/-- The body of the executor lambda: wrap the callback in a `JNativeRunnable`
and pass it to `javaExecutor->execute`. -/
def ExecutorAdapter.call (self : ExecutorAdapter) (callback : Callback) (w : World) : World :=
  let jrunnable : JNativeRunnable := ⟨callback⟩
  JExecutor.execute self.javaExecutor jrunnable w

/-- The constructor. -/
def construct (reactHostImpl : Option ReactHostImpl) (executor : Option JExecutor) (w : World) :
    JReactHostInspectorTarget × ExecutorAdapter × World :=
  let javaExecutor_ := executor
  let adapter : ExecutorAdapter := ⟨javaExecutor_⟩
  if w.fuseboxEnabled then
    let (target, w1) := HostTarget.create w
    let (pageId, w2) :=
      addPage "React Native Bridgeless (Experimental)" "" ConnectFunc.weakCapture
        { nativePageReloads := true, prefersFuseboxFrontend := true } w1
    ({ javaReactHostImpl_ := reactHostImpl, javaExecutor_ := javaExecutor_,
       inspectorTarget_ := some target, inspectorPageId_ := some pageId }, adapter, w2)
  else
    ({ javaReactHostImpl_ := reactHostImpl, javaExecutor_ := javaExecutor_,
       inspectorTarget_ := none, inspectorPageId_ := none }, adapter, w)

/-- The connect callback stored with the page. `inspectorTargetWeak.lock()`
yields the target exactly when some `shared_ptr` still owns it; then the
connection is forwarded, otherwise it is rejected with `nullptr`. -/
def connectCallback (targetConnect : RemoteConnection → Option LocalConnection)
    (remote : RemoteConnection) (w : World) : Option LocalConnection × World :=
  if 0 < w.targetStrong then
    (targetConnect remote, w.emit (Event.targetConnect remote))
  else
    (none, w)

/-- The body of the destructor. -/
def destructorBody (self : JReactHostInspectorTarget) (w : World) : World :=
  match self.inspectorPageId_ with
  | some pageId => removePage pageId w
  | none => w

/-- What follows the destructor body: the members are destroyed, and with
`inspectorTarget_` the bridge gives up its ownership of the target. -/
def destroyMembers (self : JReactHostInspectorTarget) (w : World) : World :=
  match self.inspectorTarget_ with
  | some _ => { w with targetStrong := w.targetStrong - 1, log := w.log ++ [Event.releaseTargetMember] }
  | none => w

/-- Destruction of the object: destructor body, then the members. -/
def destroy (self : JReactHostInspectorTarget) (w : World) : World :=
  destroyMembers self (destructorBody self w)

/-- `sendDebuggerResumeCommand()`. -/
def sendDebuggerResumeCommand (self : JReactHostInspectorTarget) (w : World) :
    Except Failure World :=
  match self.inspectorTarget_ with
  | some _ => .ok (w.emit (Event.sendCommand HostCommand.DebuggerResume))
  | none =>
    .error (Failure.illegalStateException
      "Cannot send command while the Fusebox backend is not enabled")

/-- `getMetadata()`. -/
def getMetadata (self : JReactHostInspectorTarget) (w : World) :
    Except Failure (HostTargetMetadata × World) :=
  let metadata : HostTargetMetadata :=
    { appIdentifier := none
      deviceName := none
      integrationName := "Android Bridgeless (ReactHostImpl)"
      platform := none
      reactNativeVersion := none }
  match JReactHostImpl.get self.javaReactHostImpl_ with
  | some javaReactHostImplStrong =>
    let (javaMetadata, w1) := JReactHostImpl.getHostMetadata javaReactHostImplStrong w
    let getStringOptional := fun (key : String) => javaMetadata.lookup key
    .ok ({ metadata with
           appIdentifier := getStringOptional "appIdentifier"
           deviceName := getStringOptional "deviceName"
           platform := getStringOptional "platform"
           reactNativeVersion := getStringOptional "reactNativeVersion" }, w1)
  | none => .ok (metadata, w)

/-- `onReload(request)`; the request is not read. -/
def onReload (self : JReactHostInspectorTarget) (_request : PageReloadRequest) (w : World) :
    Except Failure World :=
  .ok (JReactHostImpl.reload self.javaReactHostImpl_ "CDP Page.reload" w)

/-- `onSetPausedInDebuggerMessage(request)`. -/
def onSetPausedInDebuggerMessage (self : JReactHostInspectorTarget)
    (request : OverlaySetPausedInDebuggerMessageRequest) (w : World) : Except Failure World :=
  .ok (JReactHostImpl.setPausedInDebuggerMessage self.javaReactHostImpl_ request.message w)

/-- `getInspectorTarget()`: `inspectorTarget_ ? inspectorTarget_.get() : nullptr`. -/
def getInspectorTarget (self : JReactHostInspectorTarget) : Option HostTarget :=
  match self.inspectorTarget_ with
  | some target => some target
  | none => none

/-- One operation on a live bridge. -/
def step (self : JReactHostInspectorTarget) (op : Op) (w : World) : World :=
  match op with
  | .sendDebuggerResumeCommand => settle w (sendDebuggerResumeCommand self w) id
  | .getMetadata => settle w (getMetadata self w) Prod.snd
  | .onReload request => settle w (onReload self request w) id
  | .onSetPausedInDebuggerMessage request => settle w (onSetPausedInDebuggerMessage self request w) id
  | .getInspectorTarget => w

/-- A sequence of operations on a live bridge, first to last. -/
def runOps (self : JReactHostInspectorTarget) (ops : List Op) (w : World) : World :=
  ops.foldl (fun acc op => step self op acc) w

end JReactHostInspectorTarget

/-- Submit callbacks one after the other to an executor lambda. -/
def submitAll (call : Callback → World → World) (callbacks : List Callback) (w : World) : World :=
  callbacks.foldl (fun acc c => call c acc) w

/-- The bridge variant constructed in a fresh world and put through a run of
operations: the object and the world it has reached. -/
def ReactInstanceManagerInspectorTarget.live (executor : Option JExecutor)
    (delegate : Option TargetDelegate) (fuseboxEnabled : Bool) (firstPageId : Int)
    (ops : List Op) : ReactInstanceManagerInspectorTarget × World :=
  let c := ReactInstanceManagerInspectorTarget.construct executor delegate
    (World.initial fuseboxEnabled firstPageId)
  (c.1, ReactInstanceManagerInspectorTarget.runOps c.1 ops c.2.2)

/-- A whole lifetime of the bridge variant: construct, operate, destroy. -/
def ReactInstanceManagerInspectorTarget.lifetime (executor : Option JExecutor)
    (delegate : Option TargetDelegate) (fuseboxEnabled : Bool) (firstPageId : Int)
    (ops : List Op) : World :=
  let l := ReactInstanceManagerInspectorTarget.live executor delegate fuseboxEnabled firstPageId ops
  ReactInstanceManagerInspectorTarget.destroy l.1 l.2

/-- The bridgeless variant constructed in a fresh world and put through a run
of operations: the object and the world it has reached. -/
def JReactHostInspectorTarget.live (reactHostImpl : Option ReactHostImpl)
    (executor : Option JExecutor) (fuseboxEnabled : Bool) (firstPageId : Int)
    (ops : List Op) : JReactHostInspectorTarget × World :=
  let c := JReactHostInspectorTarget.construct reactHostImpl executor
    (World.initial fuseboxEnabled firstPageId)
  (c.1, JReactHostInspectorTarget.runOps c.1 ops c.2.2)

/-- A whole lifetime of the bridgeless variant: construct, operate, destroy. -/
def JReactHostInspectorTarget.lifetime (reactHostImpl : Option ReactHostImpl)
    (executor : Option JExecutor) (fuseboxEnabled : Bool) (firstPageId : Int)
    (ops : List Op) : World :=
  let l := JReactHostInspectorTarget.live reactHostImpl executor fuseboxEnabled firstPageId ops
  JReactHostInspectorTarget.destroy l.1 l.2

/-! ## Lemmas shared by the theorems -/

/-- A list of calls none of which goes to the page registry. -/
def quiet (es : List Event) : Prop :=
  ∀ e ∈ es, e.isAddPage = false ∧ e.isRemovePage = false

theorem quiet_nil : quiet [] := by
  intro e he; cases he

theorem quiet_append {a b : List Event} (ha : quiet a) (hb : quiet b) : quiet (a ++ b) := by
  intro e he
  rcases List.mem_append.mp he with h | h
  · exact ha e h
  · exact hb e h

theorem quiet_filter_isAddPage {es : List Event} (h : quiet es) :
    es.filter Event.isAddPage = [] := by
  rw [List.filter_eq_nil_iff]
  intro e he
  simp [(h e he).1]

theorem quiet_filter_isRemovePage {es : List Event} (h : quiet es) :
    es.filter Event.isRemovePage = [] := by
  rw [List.filter_eq_nil_iff]
  intro e he
  simp [(h e he).2]

/-- An operation of the bridge variant touches nothing but the log, and
appends no registry call to it. -/
theorem ReactInstanceManagerInspectorTarget.bridge_step_log
    (self : ReactInstanceManagerInspectorTarget) (op : Op) (w : World) :
    ∃ es, ReactInstanceManagerInspectorTarget.step self op w = { w with log := w.log ++ es } ∧
      quiet es := by
  cases op with
  | sendDebuggerResumeCommand =>
    cases h : self.inspectorTarget_ with
    | none => exact ⟨[], by simp [step, sendDebuggerResumeCommand, settle, h], quiet_nil⟩
    | some t =>
      refine ⟨[Event.sendCommand HostCommand.DebuggerResume], ?_, ?_⟩
      · simp [step, sendDebuggerResumeCommand, settle, h, World.emit]
      · intro e he; simp at he; subst he; simp [Event.isAddPage, Event.isRemovePage]
  | getMetadata =>
    cases h : self.delegate_ with
    | none =>
      exact ⟨[], by simp [step, getMetadata, TargetDelegate.getMetadata, callJava, settle, h,
        Except.map], quiet_nil⟩
    | some d =>
      refine ⟨[Event.delegateGetMetadata], ?_, ?_⟩
      · simp [step, getMetadata, TargetDelegate.getMetadata, callJava, settle, h, Except.map,
          World.emit]
      · intro e he; simp at he; subst he; simp [Event.isAddPage, Event.isRemovePage]
  | onReload request =>
    cases h : self.delegate_ with
    | none =>
      exact ⟨[], by simp [step, onReload, TargetDelegate.onReload, callJava, settle, h,
        Except.map], quiet_nil⟩
    | some d =>
      refine ⟨[Event.delegateOnReload], ?_, ?_⟩
      · simp [step, onReload, TargetDelegate.onReload, callJava, settle, h, Except.map,
          World.emit]
      · intro e he; simp at he; subst he; simp [Event.isAddPage, Event.isRemovePage]
  | onSetPausedInDebuggerMessage request =>
    cases h : self.delegate_ with
    | none =>
      exact ⟨[], by simp [step, onSetPausedInDebuggerMessage,
        TargetDelegate.onSetPausedInDebuggerMessage, callJava, settle, h, Except.map], quiet_nil⟩
    | some d =>
      refine ⟨[Event.delegateOnSetPausedInDebuggerMessage request.message], ?_, ?_⟩
      · cases hm : request.message <;>
          simp [step, onSetPausedInDebuggerMessage, TargetDelegate.onSetPausedInDebuggerMessage,
            callJava, settle, h, hm, Except.map, World.emit]
      · intro e he; simp at he; subst he; simp [Event.isAddPage, Event.isRemovePage]
  | getInspectorTarget => exact ⟨[], by simp [step], quiet_nil⟩

/-- An operation of the bridgeless variant touches nothing but the log, and
appends no registry call to it. -/
theorem JReactHostInspectorTarget.bridgeless_step_log
    (self : JReactHostInspectorTarget) (op : Op) (w : World) :
    ∃ es, JReactHostInspectorTarget.step self op w = { w with log := w.log ++ es } ∧
      quiet es := by
  cases op with
  | sendDebuggerResumeCommand =>
    cases h : self.inspectorTarget_ with
    | none => exact ⟨[], by simp [step, sendDebuggerResumeCommand, settle, h], quiet_nil⟩
    | some t =>
      refine ⟨[Event.sendCommand HostCommand.DebuggerResume], ?_, ?_⟩
      · simp [step, sendDebuggerResumeCommand, settle, h, World.emit]
      · intro e he; simp at he; subst he; simp [Event.isAddPage, Event.isRemovePage]
  | getMetadata =>
    cases h : self.javaReactHostImpl_ with
    | none =>
      exact ⟨[], by simp [step, getMetadata, JReactHostImpl.get, settle, h], quiet_nil⟩
    | some d =>
      refine ⟨[Event.hostGetHostMetadata], ?_, ?_⟩
      · simp [step, getMetadata, JReactHostImpl.get, JReactHostImpl.getHostMetadata, settle, h,
          World.emit]
      · intro e he; simp at he; subst he; simp [Event.isAddPage, Event.isRemovePage]
  | onReload request =>
    cases h : self.javaReactHostImpl_ with
    | none =>
      exact ⟨[], by simp [step, onReload, JReactHostImpl.reload, JReactHostImpl.get, settle, h],
        quiet_nil⟩
    | some d =>
      refine ⟨[Event.hostReload "CDP Page.reload"], ?_, ?_⟩
      · simp [step, onReload, JReactHostImpl.reload, JReactHostImpl.get, settle, h, World.emit]
      · intro e he; simp at he; subst he; simp [Event.isAddPage, Event.isRemovePage]
  | onSetPausedInDebuggerMessage request =>
    cases h : self.javaReactHostImpl_ with
    | none =>
      exact ⟨[], by simp [step, onSetPausedInDebuggerMessage,
        JReactHostImpl.setPausedInDebuggerMessage, JReactHostImpl.get, settle, h], quiet_nil⟩
    | some d =>
      refine ⟨[Event.hostSetPausedInDebuggerMessage request.message], ?_, ?_⟩
      · simp [step, onSetPausedInDebuggerMessage, JReactHostImpl.setPausedInDebuggerMessage,
          JReactHostImpl.get, settle, h, World.emit]
      · intro e he; simp at he; subst he; simp [Event.isAddPage, Event.isRemovePage]
  | getInspectorTarget => exact ⟨[], by simp [step], quiet_nil⟩

/-- A sequence of operations of the bridge variant touches nothing but the
log, and appends no registry call to it. -/
theorem ReactInstanceManagerInspectorTarget.bridge_runOps_log
    (self : ReactInstanceManagerInspectorTarget) (ops : List Op) (w : World) :
    ∃ es, ReactInstanceManagerInspectorTarget.runOps self ops w = { w with log := w.log ++ es } ∧
      quiet es := by
  induction ops generalizing w with
  | nil => exact ⟨[], by simp [runOps], quiet_nil⟩
  | cons op rest ih =>
    obtain ⟨es1, h1, q1⟩ := bridge_step_log self op w
    obtain ⟨es2, h2, q2⟩ := ih (step self op w)
    refine ⟨es1 ++ es2, ?_, quiet_append q1 q2⟩
    have : runOps self (op :: rest) w = runOps self rest (step self op w) := by
      simp [runOps]
    rw [this, h2, h1]
    simp [List.append_assoc]

/-- A sequence of operations of the bridgeless variant touches nothing but the
log, and appends no registry call to it. -/
theorem JReactHostInspectorTarget.bridgeless_runOps_log
    (self : JReactHostInspectorTarget) (ops : List Op) (w : World) :
    ∃ es, JReactHostInspectorTarget.runOps self ops w = { w with log := w.log ++ es } ∧
      quiet es := by
  induction ops generalizing w with
  | nil => exact ⟨[], by simp [runOps], quiet_nil⟩
  | cons op rest ih =>
    obtain ⟨es1, h1, q1⟩ := bridgeless_step_log self op w
    obtain ⟨es2, h2, q2⟩ := ih (step self op w)
    refine ⟨es1 ++ es2, ?_, quiet_append q1 q2⟩
    have : runOps self (op :: rest) w = runOps self rest (step self op w) := by
      simp [runOps]
    rw [this, h2, h1]
    simp [List.append_assoc]

/-- What the constructor of the bridge variant leaves behind. -/
theorem ReactInstanceManagerInspectorTarget.bridge_construct_eq
    (executor : Option JExecutor) (delegate : Option TargetDelegate)
    (fuseboxEnabled : Bool) (firstPageId : Int) :
    ReactInstanceManagerInspectorTarget.construct executor delegate
        (World.initial fuseboxEnabled firstPageId) =
      if fuseboxEnabled then
        ({ delegate_ := delegate, inspectorTarget_ := some HostTarget.created,
           inspectorPageId_ := some firstPageId },
         ⟨executor⟩,
         { fuseboxEnabled := true
           nextPageId := firstPageId + 1
           pages := [⟨firstPageId, "React Native Bridge (Experimental)", "",
                      ConnectFunc.strongCapture, ⟨true, true⟩⟩]
           targetStrong := 2
           executor := { queue := [], ran := [] }
           log := [Event.hostTargetCreate,
                   Event.addPage "React Native Bridge (Experimental)" "" ConnectFunc.strongCapture
                     ⟨true, true⟩ firstPageId] })
      else
        ({ delegate_ := delegate, inspectorTarget_ := none, inspectorPageId_ := none },
         ⟨executor⟩, World.initial false firstPageId) := by
  cases fuseboxEnabled <;>
    simp [construct, World.initial, HostTarget.create, addPage, ConnectFunc.owners]

/-- What the constructor of the bridgeless variant leaves behind. -/
theorem JReactHostInspectorTarget.bridgeless_construct_eq
    (reactHostImpl : Option ReactHostImpl) (executor : Option JExecutor)
    (fuseboxEnabled : Bool) (firstPageId : Int) :
    JReactHostInspectorTarget.construct reactHostImpl executor
        (World.initial fuseboxEnabled firstPageId) =
      if fuseboxEnabled then
        ({ javaReactHostImpl_ := reactHostImpl, javaExecutor_ := executor,
           inspectorTarget_ := some HostTarget.created, inspectorPageId_ := some firstPageId },
         ⟨executor⟩,
         { fuseboxEnabled := true
           nextPageId := firstPageId + 1
           pages := [⟨firstPageId, "React Native Bridgeless (Experimental)", "",
                      ConnectFunc.weakCapture, ⟨true, true⟩⟩]
           targetStrong := 1
           executor := { queue := [], ran := [] }
           log := [Event.hostTargetCreate,
                   Event.addPage "React Native Bridgeless (Experimental)" ""
                     ConnectFunc.weakCapture ⟨true, true⟩ firstPageId] })
      else
        ({ javaReactHostImpl_ := reactHostImpl, javaExecutor_ := executor,
           inspectorTarget_ := none, inspectorPageId_ := none },
         ⟨executor⟩, World.initial false firstPageId) := by
  cases fuseboxEnabled <;>
    simp [construct, World.initial, HostTarget.create, addPage, ConnectFunc.owners]

/-- The bridge variant after its operations: the object the constructor made,
in the world the constructor left, with some quiet calls appended to the log. -/
theorem ReactInstanceManagerInspectorTarget.bridge_live_eq (executor : Option JExecutor)
    (delegate : Option TargetDelegate) (fuseboxEnabled : Bool) (firstPageId : Int)
    (ops : List Op) :
    ∃ es, quiet es ∧
      ReactInstanceManagerInspectorTarget.live executor delegate fuseboxEnabled firstPageId ops =
        ((ReactInstanceManagerInspectorTarget.construct executor delegate
            (World.initial fuseboxEnabled firstPageId)).1,
         { (ReactInstanceManagerInspectorTarget.construct executor delegate
              (World.initial fuseboxEnabled firstPageId)).2.2 with
           log := (ReactInstanceManagerInspectorTarget.construct executor delegate
              (World.initial fuseboxEnabled firstPageId)).2.2.log ++ es }) := by
  obtain ⟨es, h, q⟩ := bridge_runOps_log
    (construct executor delegate (World.initial fuseboxEnabled firstPageId)).1 ops
    (construct executor delegate (World.initial fuseboxEnabled firstPageId)).2.2
  exact ⟨es, q, by simp only [live, h]⟩

/-- The bridgeless variant after its operations: the object the constructor
made, in the world the constructor left, with some quiet calls appended to the
log. -/
theorem JReactHostInspectorTarget.bridgeless_live_eq (reactHostImpl : Option ReactHostImpl)
    (executor : Option JExecutor) (fuseboxEnabled : Bool) (firstPageId : Int)
    (ops : List Op) :
    ∃ es, quiet es ∧
      JReactHostInspectorTarget.live reactHostImpl executor fuseboxEnabled firstPageId ops =
        ((JReactHostInspectorTarget.construct reactHostImpl executor
            (World.initial fuseboxEnabled firstPageId)).1,
         { (JReactHostInspectorTarget.construct reactHostImpl executor
              (World.initial fuseboxEnabled firstPageId)).2.2 with
           log := (JReactHostInspectorTarget.construct reactHostImpl executor
              (World.initial fuseboxEnabled firstPageId)).2.2.log ++ es }) := by
  obtain ⟨es, h, q⟩ := bridgeless_runOps_log
    (construct reactHostImpl executor (World.initial fuseboxEnabled firstPageId)).1 ops
    (construct reactHostImpl executor (World.initial fuseboxEnabled firstPageId)).2.2
  exact ⟨es, q, by simp only [live, h]⟩

/-! ## The claims -/

/-- C1: in both variants and after any run of operations,
`sendDebuggerResumeCommand()` raises `IllegalStateException` exactly when the
bridge was constructed with the Fusebox flag off; constructed with the flag on
it returns normally, and the only change to the world is one
`sendCommand(HostCommand::DebuggerResume)` on the target handle. -/
theorem sendDebuggerResumeCommand_illegalState_iff_disabled
    (executor : Option JExecutor) (delegate : Option TargetDelegate)
    (reactHostImpl : Option ReactHostImpl) (fuseboxEnabled : Bool) (firstPageId : Int)
    (ops : List Op) :
    (((∃ message, ReactInstanceManagerInspectorTarget.sendDebuggerResumeCommand
          (ReactInstanceManagerInspectorTarget.live executor delegate fuseboxEnabled firstPageId ops).1
          (ReactInstanceManagerInspectorTarget.live executor delegate fuseboxEnabled firstPageId ops).2
          = .error (Failure.illegalStateException message)) ↔ fuseboxEnabled = false) ∧
     (fuseboxEnabled = true →
        ReactInstanceManagerInspectorTarget.sendDebuggerResumeCommand
          (ReactInstanceManagerInspectorTarget.live executor delegate fuseboxEnabled firstPageId ops).1
          (ReactInstanceManagerInspectorTarget.live executor delegate fuseboxEnabled firstPageId ops).2
          = .ok ((ReactInstanceManagerInspectorTarget.live executor delegate fuseboxEnabled
                    firstPageId ops).2.emit (Event.sendCommand HostCommand.DebuggerResume)))) ∧
    (((∃ message, JReactHostInspectorTarget.sendDebuggerResumeCommand
          (JReactHostInspectorTarget.live reactHostImpl executor fuseboxEnabled firstPageId ops).1
          (JReactHostInspectorTarget.live reactHostImpl executor fuseboxEnabled firstPageId ops).2
          = .error (Failure.illegalStateException message)) ↔ fuseboxEnabled = false) ∧
     (fuseboxEnabled = true →
        JReactHostInspectorTarget.sendDebuggerResumeCommand
          (JReactHostInspectorTarget.live reactHostImpl executor fuseboxEnabled firstPageId ops).1
          (JReactHostInspectorTarget.live reactHostImpl executor fuseboxEnabled firstPageId ops).2
          = .ok ((JReactHostInspectorTarget.live reactHostImpl executor fuseboxEnabled
                    firstPageId ops).2.emit (Event.sendCommand HostCommand.DebuggerResume)))) := by
  obtain ⟨es, -, hb⟩ := ReactInstanceManagerInspectorTarget.bridge_live_eq executor delegate
    fuseboxEnabled firstPageId ops
  obtain ⟨es2, -, hh⟩ := JReactHostInspectorTarget.bridgeless_live_eq reactHostImpl executor
    fuseboxEnabled firstPageId ops
  rw [hb, hh, ReactInstanceManagerInspectorTarget.bridge_construct_eq,
    JReactHostInspectorTarget.bridgeless_construct_eq]
  cases fuseboxEnabled <;>
    simp [ReactInstanceManagerInspectorTarget.sendDebuggerResumeCommand,
      JReactHostInspectorTarget.sendDebuggerResumeCommand]

/-- C1 at a concrete input: a bridge constructed with the flag on, after one
`onReload`, answers the resume command with one `sendCommand`. -/
theorem sendDebuggerResumeCommand_illegalState_iff_disabled_witness :
    ReactInstanceManagerInspectorTarget.sendDebuggerResumeCommand
        (ReactInstanceManagerInspectorTarget.live (some JExecutor.hostThread) (some ⟨[]⟩) true 7
          [Op.onReload ⟨0⟩]).1
        (ReactInstanceManagerInspectorTarget.live (some JExecutor.hostThread) (some ⟨[]⟩) true 7
          [Op.onReload ⟨0⟩]).2
      = .ok ((ReactInstanceManagerInspectorTarget.live (some JExecutor.hostThread) (some ⟨[]⟩) true 7
          [Op.onReload ⟨0⟩]).2.emit (Event.sendCommand HostCommand.DebuggerResume)) :=
  (sendDebuggerResumeCommand_illegalState_iff_disabled (some JExecutor.hostThread) (some ⟨[]⟩)
    (some ⟨[]⟩) true 7 [Op.onReload ⟨0⟩]).1.2 rfl

/-- C2: in both variants, a bridge constructed with the Fusebox flag off
answers `getInspectorTarget()` with null after any run of operations, and over
its whole lifetime, destruction included, the registry receives neither an
`addPage` nor a `removePage` call and holds no page. -/
theorem disabled_bridge_has_no_target_and_no_page
    (executor : Option JExecutor) (delegate : Option TargetDelegate)
    (reactHostImpl : Option ReactHostImpl) (firstPageId : Int) (ops : List Op) :
    (ReactInstanceManagerInspectorTarget.getInspectorTarget
        (ReactInstanceManagerInspectorTarget.live executor delegate false firstPageId ops).1 = none ∧
      (∀ e ∈ (ReactInstanceManagerInspectorTarget.lifetime executor delegate false firstPageId
          ops).log, e.isAddPage = false ∧ e.isRemovePage = false) ∧
      (ReactInstanceManagerInspectorTarget.lifetime executor delegate false firstPageId
          ops).pages = []) ∧
    (JReactHostInspectorTarget.getInspectorTarget
        (JReactHostInspectorTarget.live reactHostImpl executor false firstPageId ops).1 = none ∧
      (∀ e ∈ (JReactHostInspectorTarget.lifetime reactHostImpl executor false firstPageId
          ops).log, e.isAddPage = false ∧ e.isRemovePage = false) ∧
      (JReactHostInspectorTarget.lifetime reactHostImpl executor false firstPageId
          ops).pages = []) := by
  obtain ⟨es, q, hb⟩ := ReactInstanceManagerInspectorTarget.bridge_live_eq executor delegate
    false firstPageId ops
  obtain ⟨es2, q2, hh⟩ := JReactHostInspectorTarget.bridgeless_live_eq reactHostImpl executor
    false firstPageId ops
  simp only [ReactInstanceManagerInspectorTarget.lifetime, JReactHostInspectorTarget.lifetime]
  rw [hb, hh, ReactInstanceManagerInspectorTarget.bridge_construct_eq,
    JReactHostInspectorTarget.bridgeless_construct_eq]
  refine ⟨⟨rfl, ?_, rfl⟩, ⟨rfl, ?_, rfl⟩⟩
  · simpa [ReactInstanceManagerInspectorTarget.destroy,
      ReactInstanceManagerInspectorTarget.destructorBody,
      ReactInstanceManagerInspectorTarget.destroyMembers, World.initial] using q
  · simpa [JReactHostInspectorTarget.destroy, JReactHostInspectorTarget.destructorBody,
      JReactHostInspectorTarget.destroyMembers, World.initial] using q2

/-- The log of a whole lifetime of the bridge variant. -/
theorem ReactInstanceManagerInspectorTarget.bridge_lifetime_log (executor : Option JExecutor)
    (delegate : Option TargetDelegate) (fuseboxEnabled : Bool) (firstPageId : Int)
    (ops : List Op) :
    ∃ es, quiet es ∧
      (ReactInstanceManagerInspectorTarget.live executor delegate fuseboxEnabled firstPageId
          ops).2.log =
        (if fuseboxEnabled then
          [Event.hostTargetCreate,
           Event.addPage "React Native Bridge (Experimental)" "" ConnectFunc.strongCapture
             ⟨true, true⟩ firstPageId]
         else []) ++ es ∧
      (ReactInstanceManagerInspectorTarget.lifetime executor delegate fuseboxEnabled firstPageId
          ops).log =
        (ReactInstanceManagerInspectorTarget.live executor delegate fuseboxEnabled firstPageId
          ops).2.log ++
        (if fuseboxEnabled then [Event.removePage firstPageId, Event.releaseTargetMember]
         else []) := by
  obtain ⟨es, q, hb⟩ := bridge_live_eq executor delegate fuseboxEnabled firstPageId ops
  refine ⟨es, q, ?_⟩
  simp only [lifetime]
  rw [hb, bridge_construct_eq]
  cases fuseboxEnabled <;>
    simp [destroy, destructorBody, destroyMembers, removePage, World.initial]

/-- The log of a whole lifetime of the bridgeless variant. -/
theorem JReactHostInspectorTarget.bridgeless_lifetime_log (reactHostImpl : Option ReactHostImpl)
    (executor : Option JExecutor) (fuseboxEnabled : Bool) (firstPageId : Int)
    (ops : List Op) :
    ∃ es, quiet es ∧
      (JReactHostInspectorTarget.live reactHostImpl executor fuseboxEnabled firstPageId
          ops).2.log =
        (if fuseboxEnabled then
          [Event.hostTargetCreate,
           Event.addPage "React Native Bridgeless (Experimental)" "" ConnectFunc.weakCapture
             ⟨true, true⟩ firstPageId]
         else []) ++ es ∧
      (JReactHostInspectorTarget.lifetime reactHostImpl executor fuseboxEnabled firstPageId
          ops).log =
        (JReactHostInspectorTarget.live reactHostImpl executor fuseboxEnabled firstPageId
          ops).2.log ++
        (if fuseboxEnabled then [Event.removePage firstPageId, Event.releaseTargetMember]
         else []) := by
  obtain ⟨es, q, hb⟩ := bridgeless_live_eq reactHostImpl executor fuseboxEnabled firstPageId ops
  refine ⟨es, q, ?_⟩
  simp only [lifetime]
  rw [hb, bridgeless_construct_eq]
  cases fuseboxEnabled <;>
    simp [destroy, destructorBody, destroyMembers, removePage, World.initial]

/-- The registry calls in a log made of a constructor part, a quiet part and a
destructor part. -/
theorem registry_calls_of_lifetime (fuseboxEnabled : Bool) (firstPageId : Int)
    (title : String) (connectFunc : ConnectFunc) (es : List Event) (q : quiet es) :
    (((if fuseboxEnabled then
          [Event.hostTargetCreate,
           Event.addPage title "" connectFunc ⟨true, true⟩ firstPageId]
        else []) ++ es).filter Event.isRemovePage = []) ∧
    ((((if fuseboxEnabled then
          [Event.hostTargetCreate,
           Event.addPage title "" connectFunc ⟨true, true⟩ firstPageId]
        else []) ++ es) ++
        (if fuseboxEnabled then [Event.removePage firstPageId, Event.releaseTargetMember]
         else [])).filter Event.isRemovePage =
      if fuseboxEnabled then [Event.removePage firstPageId] else []) ∧
    ((((if fuseboxEnabled then
          [Event.hostTargetCreate,
           Event.addPage title "" connectFunc ⟨true, true⟩ firstPageId]
        else []) ++ es) ++
        (if fuseboxEnabled then [Event.removePage firstPageId, Event.releaseTargetMember]
         else [])).filter Event.isAddPage =
      if fuseboxEnabled then [Event.addPage title "" connectFunc ⟨true, true⟩ firstPageId]
      else []) := by
  have ha := quiet_filter_isAddPage q
  have hr := quiet_filter_isRemovePage q
  cases fuseboxEnabled <;>
    simp [List.filter_append, List.filter_cons, ha, hr, Event.isAddPage, Event.isRemovePage]

/-- C3: in both variants and over every lifetime (construct, any run of
operations, destroy), the bridge issues as many `removePage` calls as `addPage`
calls, at most one of each; no `removePage` is issued before destruction; and
the one that destruction issues carries the page id that `addPage` returned. -/
theorem removePage_balances_addPage
    (executor : Option JExecutor) (delegate : Option TargetDelegate)
    (reactHostImpl : Option ReactHostImpl) (fuseboxEnabled : Bool) (firstPageId : Int)
    (ops : List Op) :
    ((((ReactInstanceManagerInspectorTarget.lifetime executor delegate fuseboxEnabled
          firstPageId ops).log.filter Event.isRemovePage).length =
        ((ReactInstanceManagerInspectorTarget.lifetime executor delegate fuseboxEnabled
          firstPageId ops).log.filter Event.isAddPage).length) ∧
      (((ReactInstanceManagerInspectorTarget.lifetime executor delegate fuseboxEnabled
          firstPageId ops).log.filter Event.isAddPage).length ≤ 1) ∧
      ((ReactInstanceManagerInspectorTarget.live executor delegate fuseboxEnabled
          firstPageId ops).2.log.filter Event.isRemovePage = []) ∧
      ((ReactInstanceManagerInspectorTarget.lifetime executor delegate fuseboxEnabled
          firstPageId ops).log.filter Event.isRemovePage =
        if fuseboxEnabled then [Event.removePage firstPageId] else []) ∧
      ((ReactInstanceManagerInspectorTarget.lifetime executor delegate fuseboxEnabled
          firstPageId ops).log.filter Event.isAddPage =
        if fuseboxEnabled then
          [Event.addPage "React Native Bridge (Experimental)" "" ConnectFunc.strongCapture
            ⟨true, true⟩ firstPageId]
        else [])) ∧
    ((((JReactHostInspectorTarget.lifetime reactHostImpl executor fuseboxEnabled
          firstPageId ops).log.filter Event.isRemovePage).length =
        ((JReactHostInspectorTarget.lifetime reactHostImpl executor fuseboxEnabled
          firstPageId ops).log.filter Event.isAddPage).length) ∧
      (((JReactHostInspectorTarget.lifetime reactHostImpl executor fuseboxEnabled
          firstPageId ops).log.filter Event.isAddPage).length ≤ 1) ∧
      ((JReactHostInspectorTarget.live reactHostImpl executor fuseboxEnabled
          firstPageId ops).2.log.filter Event.isRemovePage = []) ∧
      ((JReactHostInspectorTarget.lifetime reactHostImpl executor fuseboxEnabled
          firstPageId ops).log.filter Event.isRemovePage =
        if fuseboxEnabled then [Event.removePage firstPageId] else []) ∧
      ((JReactHostInspectorTarget.lifetime reactHostImpl executor fuseboxEnabled
          firstPageId ops).log.filter Event.isAddPage =
        if fuseboxEnabled then
          [Event.addPage "React Native Bridgeless (Experimental)" "" ConnectFunc.weakCapture
            ⟨true, true⟩ firstPageId]
        else [])) := by
  obtain ⟨es, q, h1, h2⟩ := ReactInstanceManagerInspectorTarget.bridge_lifetime_log executor delegate
    fuseboxEnabled firstPageId ops
  obtain ⟨es2, q2, h3, h4⟩ := JReactHostInspectorTarget.bridgeless_lifetime_log reactHostImpl executor
    fuseboxEnabled firstPageId ops
  obtain ⟨a1, a2, a3⟩ := registry_calls_of_lifetime fuseboxEnabled firstPageId
    "React Native Bridge (Experimental)" ConnectFunc.strongCapture es q
  obtain ⟨b1, b2, b3⟩ := registry_calls_of_lifetime fuseboxEnabled firstPageId
    "React Native Bridgeless (Experimental)" ConnectFunc.weakCapture es2 q2
  rw [h2, h4, h1, h3, a1, a2, a3, b1, b2, b3]
  cases fuseboxEnabled <;> simp

/-- C8: in both variants, when a bridge constructed with the flag on (the
registry returned `firstPageId`) is destroyed after any run of operations,
destruction logs exactly `removePage(firstPageId)` followed by the release of
the `inspectorTarget_` member; the target is owned both when `removePage` is
issued and when the destructor body has completed, and the member release that
follows takes one owner away. -/
theorem destroy_removes_page_before_releasing_target
    (executor : Option JExecutor) (delegate : Option TargetDelegate)
    (reactHostImpl : Option ReactHostImpl) (firstPageId : Int) (ops : List Op) :
    ((ReactInstanceManagerInspectorTarget.lifetime executor delegate true firstPageId ops).log =
        (ReactInstanceManagerInspectorTarget.live executor delegate true firstPageId ops).2.log ++
          [Event.removePage firstPageId, Event.releaseTargetMember] ∧
      (ReactInstanceManagerInspectorTarget.live executor delegate true firstPageId
          ops).2.log.filter Event.isRemovePage = [] ∧
      (ReactInstanceManagerInspectorTarget.destructorBody
          (ReactInstanceManagerInspectorTarget.live executor delegate true firstPageId ops).1
          (ReactInstanceManagerInspectorTarget.live executor delegate true firstPageId ops).2).log =
        (ReactInstanceManagerInspectorTarget.live executor delegate true firstPageId ops).2.log ++
          [Event.removePage firstPageId] ∧
      0 < (ReactInstanceManagerInspectorTarget.live executor delegate true firstPageId
          ops).2.targetStrong ∧
      0 < (ReactInstanceManagerInspectorTarget.destructorBody
          (ReactInstanceManagerInspectorTarget.live executor delegate true firstPageId ops).1
          (ReactInstanceManagerInspectorTarget.live executor delegate true firstPageId
            ops).2).targetStrong ∧
      (ReactInstanceManagerInspectorTarget.lifetime executor delegate true firstPageId
          ops).targetStrong + 1 =
        (ReactInstanceManagerInspectorTarget.destructorBody
          (ReactInstanceManagerInspectorTarget.live executor delegate true firstPageId ops).1
          (ReactInstanceManagerInspectorTarget.live executor delegate true firstPageId
            ops).2).targetStrong) ∧
    ((JReactHostInspectorTarget.lifetime reactHostImpl executor true firstPageId ops).log =
        (JReactHostInspectorTarget.live reactHostImpl executor true firstPageId ops).2.log ++
          [Event.removePage firstPageId, Event.releaseTargetMember] ∧
      (JReactHostInspectorTarget.live reactHostImpl executor true firstPageId
          ops).2.log.filter Event.isRemovePage = [] ∧
      (JReactHostInspectorTarget.destructorBody
          (JReactHostInspectorTarget.live reactHostImpl executor true firstPageId ops).1
          (JReactHostInspectorTarget.live reactHostImpl executor true firstPageId ops).2).log =
        (JReactHostInspectorTarget.live reactHostImpl executor true firstPageId ops).2.log ++
          [Event.removePage firstPageId] ∧
      0 < (JReactHostInspectorTarget.live reactHostImpl executor true firstPageId
          ops).2.targetStrong ∧
      0 < (JReactHostInspectorTarget.destructorBody
          (JReactHostInspectorTarget.live reactHostImpl executor true firstPageId ops).1
          (JReactHostInspectorTarget.live reactHostImpl executor true firstPageId
            ops).2).targetStrong ∧
      (JReactHostInspectorTarget.lifetime reactHostImpl executor true firstPageId
          ops).targetStrong + 1 =
        (JReactHostInspectorTarget.destructorBody
          (JReactHostInspectorTarget.live reactHostImpl executor true firstPageId ops).1
          (JReactHostInspectorTarget.live reactHostImpl executor true firstPageId
            ops).2).targetStrong) := by
  obtain ⟨es, q, hb⟩ := ReactInstanceManagerInspectorTarget.bridge_live_eq executor delegate
    true firstPageId ops
  obtain ⟨es2, q2, hh⟩ := JReactHostInspectorTarget.bridgeless_live_eq reactHostImpl executor
    true firstPageId ops
  have ha := quiet_filter_isRemovePage q
  have ha2 := quiet_filter_isRemovePage q2
  simp only [ReactInstanceManagerInspectorTarget.lifetime, JReactHostInspectorTarget.lifetime]
  rw [hb, hh, ReactInstanceManagerInspectorTarget.bridge_construct_eq,
    JReactHostInspectorTarget.bridgeless_construct_eq]
  simp [ReactInstanceManagerInspectorTarget.destroy,
    ReactInstanceManagerInspectorTarget.destructorBody,
    ReactInstanceManagerInspectorTarget.destroyMembers,
    JReactHostInspectorTarget.destroy, JReactHostInspectorTarget.destructorBody,
    JReactHostInspectorTarget.destroyMembers, removePage, ConnectFunc.owners,
    List.filter_append, List.filter_cons, ha, ha2, Event.isRemovePage]

/-- C4: the connect callback of the bridgeless variant owns nothing of the
target (after construction with the flag on the bridge is its only owner, and
the page is stored with a weak capture). Invoked while the bridge is alive it
returns what `target.connect(remote)` returns; invoked after the bridge has
been destroyed it returns `nullptr` and makes no call. The same holds in any
world, according to whether the target still has an owner. -/
theorem weak_connect_callback_rejects_after_destroy
    (reactHostImpl : Option ReactHostImpl) (executor : Option JExecutor) (firstPageId : Int)
    (ops : List Op) (targetConnect : RemoteConnection → Option LocalConnection)
    (remote : RemoteConnection) :
    ((JReactHostInspectorTarget.construct reactHostImpl executor
        (World.initial true firstPageId)).2.2.targetStrong = 1 ∧
      (JReactHostInspectorTarget.construct reactHostImpl executor
        (World.initial true firstPageId)).2.2.pages.map Page.connectFunc =
          [ConnectFunc.weakCapture]) ∧
    JReactHostInspectorTarget.connectCallback targetConnect remote
        (JReactHostInspectorTarget.live reactHostImpl executor true firstPageId ops).2 =
      (targetConnect remote,
        (JReactHostInspectorTarget.live reactHostImpl executor true firstPageId ops).2.emit
          (Event.targetConnect remote)) ∧
    JReactHostInspectorTarget.connectCallback targetConnect remote
        (JReactHostInspectorTarget.lifetime reactHostImpl executor true firstPageId ops) =
      (none, JReactHostInspectorTarget.lifetime reactHostImpl executor true firstPageId ops) ∧
    (∀ w : World, w.targetStrong = 0 →
      JReactHostInspectorTarget.connectCallback targetConnect remote w = (none, w)) ∧
    (∀ w : World, 0 < w.targetStrong →
      JReactHostInspectorTarget.connectCallback targetConnect remote w =
        (targetConnect remote, w.emit (Event.targetConnect remote))) := by
  obtain ⟨es, q, hh⟩ := JReactHostInspectorTarget.bridgeless_live_eq reactHostImpl executor
    true firstPageId ops
  simp only [JReactHostInspectorTarget.lifetime]
  rw [hh, JReactHostInspectorTarget.bridgeless_construct_eq]
  refine ⟨⟨rfl, rfl⟩, ?_, ?_, ?_, ?_⟩
  · simp [JReactHostInspectorTarget.connectCallback]
  · simp [JReactHostInspectorTarget.connectCallback, JReactHostInspectorTarget.destroy,
      JReactHostInspectorTarget.destructorBody, JReactHostInspectorTarget.destroyMembers,
      removePage, ConnectFunc.owners]
  · intro w hw
    simp [JReactHostInspectorTarget.connectCallback, hw]
  · intro w hw
    simp [JReactHostInspectorTarget.connectCallback, hw]

/-- C4 at a concrete input: in a world where nobody owns the target any more
the callback rejects remote connection 5. -/
theorem weak_connect_callback_rejects_after_destroy_witness :
    (World.initial true 1).targetStrong = 0 ∧
    JReactHostInspectorTarget.connectCallback (fun r => some (r + 100)) 5 (World.initial true 1) =
      (none, World.initial true 1) :=
  ⟨rfl, (weak_connect_callback_rejects_after_destroy none none 1 [] (fun r => some (r + 100))
    5).2.2.2.1 (World.initial true 1) rfl⟩

/-- C5: in both variants, when the delegate or host reports the map `m`,
`getMetadata()` returns normally after one query; the four optional fields are
the lookups of the keys of the same names in `m`, `integrationName` is the fixed
string of the variant, and two maps that agree on the four keys give the same
metadata. With `m = {appIdentifier: "com.example", platform: "android"}` the
two fields are populated and `deviceName`, `reactNativeVersion` are absent. -/
theorem getMetadata_projects_recognized_keys (m : JMap) (w : World)
    (inspectorTarget : Option HostTarget) (inspectorPageId : Option Int)
    (javaExecutor : Option JExecutor) :
    (ReactInstanceManagerInspectorTarget.getMetadata
        { delegate_ := some ⟨m⟩, inspectorTarget_ := inspectorTarget,
          inspectorPageId_ := inspectorPageId } w =
      .ok ({ appIdentifier := m.lookup "appIdentifier"
             deviceName := m.lookup "deviceName"
             integrationName := "Android Bridge (ReactInstanceManagerInspectorTarget)"
             platform := m.lookup "platform"
             reactNativeVersion := m.lookup "reactNativeVersion" },
           w.emit Event.delegateGetMetadata)) ∧
    (JReactHostInspectorTarget.getMetadata
        { javaReactHostImpl_ := some ⟨m⟩, javaExecutor_ := javaExecutor,
          inspectorTarget_ := inspectorTarget, inspectorPageId_ := inspectorPageId } w =
      .ok ({ appIdentifier := m.lookup "appIdentifier"
             deviceName := m.lookup "deviceName"
             integrationName := "Android Bridgeless (ReactHostImpl)"
             platform := m.lookup "platform"
             reactNativeVersion := m.lookup "reactNativeVersion" },
           w.emit Event.hostGetHostMetadata)) ∧
    (∀ m2 : JMap,
      m2.lookup "appIdentifier" = m.lookup "appIdentifier" →
      m2.lookup "deviceName" = m.lookup "deviceName" →
      m2.lookup "platform" = m.lookup "platform" →
      m2.lookup "reactNativeVersion" = m.lookup "reactNativeVersion" →
      ReactInstanceManagerInspectorTarget.getMetadata
          { delegate_ := some ⟨m2⟩, inspectorTarget_ := inspectorTarget,
            inspectorPageId_ := inspectorPageId } w =
        ReactInstanceManagerInspectorTarget.getMetadata
          { delegate_ := some ⟨m⟩, inspectorTarget_ := inspectorTarget,
            inspectorPageId_ := inspectorPageId } w ∧
      JReactHostInspectorTarget.getMetadata
          { javaReactHostImpl_ := some ⟨m2⟩, javaExecutor_ := javaExecutor,
            inspectorTarget_ := inspectorTarget, inspectorPageId_ := inspectorPageId } w =
        JReactHostInspectorTarget.getMetadata
          { javaReactHostImpl_ := some ⟨m⟩, javaExecutor_ := javaExecutor,
            inspectorTarget_ := inspectorTarget, inspectorPageId_ := inspectorPageId } w) ∧
    ((ReactInstanceManagerInspectorTarget.getMetadata
        { delegate_ := some ⟨[("appIdentifier", "com.example"), ("platform", "android")]⟩,
          inspectorTarget_ := inspectorTarget, inspectorPageId_ := inspectorPageId } w).map
        Prod.fst =
      .ok { appIdentifier := some "com.example"
            deviceName := none
            integrationName := "Android Bridge (ReactInstanceManagerInspectorTarget)"
            platform := some "android"
            reactNativeVersion := none }) ∧
    ((JReactHostInspectorTarget.getMetadata
        { javaReactHostImpl_ := some ⟨[("appIdentifier", "com.example"), ("platform", "android")]⟩,
          javaExecutor_ := javaExecutor, inspectorTarget_ := inspectorTarget,
          inspectorPageId_ := inspectorPageId } w).map Prod.fst =
      .ok { appIdentifier := some "com.example"
            deviceName := none
            integrationName := "Android Bridgeless (ReactHostImpl)"
            platform := some "android"
            reactNativeVersion := none }) := by
  refine ⟨?_, ?_, ?_, ?_, ?_⟩
  · simp [ReactInstanceManagerInspectorTarget.getMetadata, TargetDelegate.getMetadata, callJava,
      Except.map]
  · simp [JReactHostInspectorTarget.getMetadata, JReactHostImpl.get,
      JReactHostImpl.getHostMetadata]
  · intro m2 h1 h2 h3 h4
    simp [ReactInstanceManagerInspectorTarget.getMetadata, TargetDelegate.getMetadata, callJava,
      Except.map, JReactHostInspectorTarget.getMetadata, JReactHostImpl.get,
      JReactHostImpl.getHostMetadata, h1, h2, h3, h4]
  · simp [ReactInstanceManagerInspectorTarget.getMetadata, TargetDelegate.getMetadata, callJava,
      Except.map, List.lookup]
  · simp [JReactHostInspectorTarget.getMetadata, JReactHostImpl.get,
      JReactHostImpl.getHostMetadata, Except.map, List.lookup]

/-- C5 at a concrete input: a map with one more key, `locale`, yields the same
metadata as the map without it. -/
theorem getMetadata_projects_recognized_keys_witness :
    ReactInstanceManagerInspectorTarget.getMetadata
        { delegate_ := some ⟨[("locale", "fr"), ("platform", "android")]⟩,
          inspectorTarget_ := none, inspectorPageId_ := none } (World.initial false 1) =
      ReactInstanceManagerInspectorTarget.getMetadata
        { delegate_ := some ⟨[("platform", "android")]⟩,
          inspectorTarget_ := none, inspectorPageId_ := none } (World.initial false 1) :=
  ((getMetadata_projects_recognized_keys [("platform", "android")] (World.initial false 1)
      none none none).2.2.1 [("locale", "fr"), ("platform", "android")]
    (by decide) (by decide) (by decide) (by decide)).1

/-- Submitting through a bound executor appends one runnable per callback to
the queue and one `execute` per callback to the log, and runs nothing. -/
theorem submitAll_execute (callbacks : List Callback) (w : World) :
    submitAll (fun c acc => JExecutor.execute (some JExecutor.hostThread) ⟨c⟩ acc) callbacks w =
      { w with
        executor := { w.executor with
          queue := w.executor.queue ++ callbacks.map JNativeRunnable.mk }
        log := w.log ++ callbacks.map (fun c => Event.executorExecute ⟨c⟩) } := by
  induction callbacks generalizing w with
  | nil => simp [submitAll]
  | cons c rest ih =>
    have h : submitAll (fun c acc => JExecutor.execute (some JExecutor.hostThread) ⟨c⟩ acc)
        (c :: rest) w =
        submitAll (fun c acc => JExecutor.execute (some JExecutor.hostThread) ⟨c⟩ acc) rest
          (JExecutor.execute (some JExecutor.hostThread) ⟨c⟩ w) := by
      simp [submitAll]
    rw [h, ih]
    simp [JExecutor.execute, List.append_assoc]

/-- Running as many runnables as are queued empties the queue front first. -/
theorem HostExecutor.runMany_length (queue : List JNativeRunnable) (ran : List Callback) :
    HostExecutor.runMany queue.length { queue := queue, ran := ran } =
      { queue := [], ran := ran ++ queue.map JNativeRunnable.callback } := by
  induction queue generalizing ran with
  | nil => simp [HostExecutor.runMany]
  | cons r rest ih =>
    simp only [List.length_cons, HostExecutor.runMany, HostExecutor.runNext]
    rw [ih]
    simp [List.append_assoc]

/-- Draining runs the queued callbacks once each, front first. -/
theorem HostExecutor.drain_eq (e : HostExecutor) :
    e.drain = { queue := [], ran := e.ran ++ e.queue.map JNativeRunnable.callback } := by
  cases e with
  | mk queue ran => exact HostExecutor.runMany_length queue ran

/-- C9: in both variants the executor lambda, bound to the host executor, hands
each submitted callback to `execute` as one runnable wrapping it, in submission
order, and invokes none itself. With the host executor a single FIFO queue,
draining it runs what was queued before and then `c1..cn`, once each and in
that order; from an idle executor exactly `c1..cn`. The lambda that the
constructor hands to `HostTarget::create` captures the executor it was given. -/
theorem executor_adapter_preserves_submission_order
    (callbacks : List Callback) (w : World) (fuseboxEnabled : Bool) (firstPageId : Int)
    (executor : Option JExecutor) (delegate : Option TargetDelegate)
    (reactHostImpl : Option ReactHostImpl) :
    ((ReactInstanceManagerInspectorTarget.construct executor delegate w).2.1 = ⟨executor⟩ ∧
      submitAll (ReactInstanceManagerInspectorTarget.ExecutorAdapter.call
          ⟨some JExecutor.hostThread⟩) callbacks w =
        { w with
          executor := { w.executor with
            queue := w.executor.queue ++ callbacks.map JNativeRunnable.mk }
          log := w.log ++ callbacks.map (fun c => Event.executorExecute ⟨c⟩) } ∧
      (submitAll (ReactInstanceManagerInspectorTarget.ExecutorAdapter.call
          ⟨some JExecutor.hostThread⟩) callbacks w).executor.ran = w.executor.ran ∧
      (submitAll (ReactInstanceManagerInspectorTarget.ExecutorAdapter.call
          ⟨some JExecutor.hostThread⟩) callbacks w).executor.drain =
        { queue := []
          ran := w.executor.ran ++ w.executor.queue.map JNativeRunnable.callback ++ callbacks } ∧
      (submitAll (ReactInstanceManagerInspectorTarget.ExecutorAdapter.call
          ⟨some JExecutor.hostThread⟩) callbacks
          (World.initial fuseboxEnabled firstPageId)).executor.drain.ran = callbacks) ∧
    ((JReactHostInspectorTarget.construct reactHostImpl executor w).2.1 = ⟨executor⟩ ∧
      submitAll (JReactHostInspectorTarget.ExecutorAdapter.call
          ⟨some JExecutor.hostThread⟩) callbacks w =
        { w with
          executor := { w.executor with
            queue := w.executor.queue ++ callbacks.map JNativeRunnable.mk }
          log := w.log ++ callbacks.map (fun c => Event.executorExecute ⟨c⟩) } ∧
      (submitAll (JReactHostInspectorTarget.ExecutorAdapter.call
          ⟨some JExecutor.hostThread⟩) callbacks w).executor.ran = w.executor.ran ∧
      (submitAll (JReactHostInspectorTarget.ExecutorAdapter.call
          ⟨some JExecutor.hostThread⟩) callbacks w).executor.drain =
        { queue := []
          ran := w.executor.ran ++ w.executor.queue.map JNativeRunnable.callback ++ callbacks } ∧
      (submitAll (JReactHostInspectorTarget.ExecutorAdapter.call
          ⟨some JExecutor.hostThread⟩) callbacks
          (World.initial fuseboxEnabled firstPageId)).executor.drain.ran = callbacks) := by
  have hmap : List.map JNativeRunnable.callback (List.map JNativeRunnable.mk callbacks) =
      callbacks := by
    simp [List.map_map, Function.comp_def]
  have hb : ReactInstanceManagerInspectorTarget.ExecutorAdapter.call
      ⟨some JExecutor.hostThread⟩ =
      (fun c acc => JExecutor.execute (some JExecutor.hostThread) ⟨c⟩ acc) := rfl
  have hh : JReactHostInspectorTarget.ExecutorAdapter.call ⟨some JExecutor.hostThread⟩ =
      (fun c acc => JExecutor.execute (some JExecutor.hostThread) ⟨c⟩ acc) := rfl
  rw [hb, hh]
  simp only [submitAll_execute, HostExecutor.drain_eq]
  refine ⟨⟨?_, trivial, trivial, ?_, ?_⟩, ⟨?_, trivial, trivial, ?_, ?_⟩⟩
  · simp only [ReactInstanceManagerInspectorTarget.construct]
    split <;> rfl
  · simp [hmap, List.append_assoc]
  · simp [World.initial, hmap]
  · simp only [JReactHostInspectorTarget.construct]
    split <;> rfl
  · simp [hmap, List.append_assoc]
  · simp [World.initial, hmap]

/-- C10: with a bound host reference each callback returns normally after
exactly one host call. Bridgeless: `onReload` calls `reload` of the host with
the reason "CDP Page.reload" whatever the request, and
`onSetPausedInDebuggerMessage` calls `setPausedInDebuggerMessage` of the host
with the message of the request as it is. Bridge: `onReload` calls `onReload`
of the delegate once, and `onSetPausedInDebuggerMessage` passes the string when
there is one and null when there is none. -/
theorem callbacks_forward_to_live_host
    (host : ReactHostImpl) (d : TargetDelegate) (w : World)
    (reloadRequest : PageReloadRequest) (message : Option String) (text : String)
    (inspectorTarget : Option HostTarget) (inspectorPageId : Option Int)
    (javaExecutor : Option JExecutor) :
    JReactHostInspectorTarget.onReload
        { javaReactHostImpl_ := some host, javaExecutor_ := javaExecutor,
          inspectorTarget_ := inspectorTarget, inspectorPageId_ := inspectorPageId }
        reloadRequest w =
      .ok (w.emit (Event.hostReload "CDP Page.reload")) ∧
    JReactHostInspectorTarget.onSetPausedInDebuggerMessage
        { javaReactHostImpl_ := some host, javaExecutor_ := javaExecutor,
          inspectorTarget_ := inspectorTarget, inspectorPageId_ := inspectorPageId }
        ⟨message⟩ w =
      .ok (w.emit (Event.hostSetPausedInDebuggerMessage message)) ∧
    ReactInstanceManagerInspectorTarget.onReload
        { delegate_ := some d, inspectorTarget_ := inspectorTarget,
          inspectorPageId_ := inspectorPageId } reloadRequest w =
      .ok (w.emit Event.delegateOnReload) ∧
    ReactInstanceManagerInspectorTarget.onSetPausedInDebuggerMessage
        { delegate_ := some d, inspectorTarget_ := inspectorTarget,
          inspectorPageId_ := inspectorPageId } ⟨some text⟩ w =
      .ok (w.emit (Event.delegateOnSetPausedInDebuggerMessage (some text))) ∧
    ReactInstanceManagerInspectorTarget.onSetPausedInDebuggerMessage
        { delegate_ := some d, inspectorTarget_ := inspectorTarget,
          inspectorPageId_ := inspectorPageId } ⟨none⟩ w =
      .ok (w.emit (Event.delegateOnSetPausedInDebuggerMessage none)) := by
  refine ⟨?_, ?_, ?_, ?_, ?_⟩
  · simp [JReactHostInspectorTarget.onReload, JReactHostImpl.reload, JReactHostImpl.get]
  · simp [JReactHostInspectorTarget.onSetPausedInDebuggerMessage,
      JReactHostImpl.setPausedInDebuggerMessage, JReactHostImpl.get]
  · simp [ReactInstanceManagerInspectorTarget.onReload, TargetDelegate.onReload, callJava,
      Except.map]
  · simp [ReactInstanceManagerInspectorTarget.onSetPausedInDebuggerMessage,
      TargetDelegate.onSetPausedInDebuggerMessage, callJava, Except.map]
  · simp [ReactInstanceManagerInspectorTarget.onSetPausedInDebuggerMessage,
      TargetDelegate.onSetPausedInDebuggerMessage, callJava, Except.map]

/-- C6 as stated fails in the bridge variant: the bridge that the constructor
builds from a null delegate reference does not drop the notifications, both
callbacks leave with a null-reference failure. -/
theorem bridge_notifications_fail_without_delegate :
    ReactInstanceManagerInspectorTarget.onReload
        (ReactInstanceManagerInspectorTarget.live (some JExecutor.hostThread) none true 1 []).1
        ⟨0⟩
        (ReactInstanceManagerInspectorTarget.live (some JExecutor.hostThread) none true 1 []).2 =
      .error Failure.nullReference ∧
    ReactInstanceManagerInspectorTarget.onSetPausedInDebuggerMessage
        (ReactInstanceManagerInspectorTarget.live (some JExecutor.hostThread) none true 1 []).1
        ⟨some "Paused in debugger"⟩
        (ReactInstanceManagerInspectorTarget.live (some JExecutor.hostThread) none true 1 []).2 =
      .error Failure.nullReference := by
  constructor <;> rfl

/-- C6, amended: in the bridgeless variant, with the host reference released,
`onReload` and `onSetPausedInDebuggerMessage` return normally and leave the
world as it was (no host method is invoked). The bridge variant has no absence
check: its two callbacks return normally exactly when the delegate reference is
bound. -/
theorem released_host_drops_notifications_bridgeless
    (w : World) (reloadRequest : PageReloadRequest)
    (pausedRequest : OverlaySetPausedInDebuggerMessageRequest)
    (inspectorTarget : Option HostTarget) (inspectorPageId : Option Int)
    (javaExecutor : Option JExecutor) (bridge : ReactInstanceManagerInspectorTarget) :
    (JReactHostInspectorTarget.onReload
        { javaReactHostImpl_ := none, javaExecutor_ := javaExecutor,
          inspectorTarget_ := inspectorTarget, inspectorPageId_ := inspectorPageId }
        reloadRequest w = .ok w ∧
      JReactHostInspectorTarget.onSetPausedInDebuggerMessage
        { javaReactHostImpl_ := none, javaExecutor_ := javaExecutor,
          inspectorTarget_ := inspectorTarget, inspectorPageId_ := inspectorPageId }
        pausedRequest w = .ok w) ∧
    (((∃ w2, ReactInstanceManagerInspectorTarget.onReload bridge reloadRequest w = .ok w2) ↔
        bridge.delegate_.isSome = true) ∧
      ((∃ w2, ReactInstanceManagerInspectorTarget.onSetPausedInDebuggerMessage bridge
          pausedRequest w = .ok w2) ↔ bridge.delegate_.isSome = true)) := by
  refine ⟨⟨?_, ?_⟩, ?_, ?_⟩
  · simp [JReactHostInspectorTarget.onReload, JReactHostImpl.reload, JReactHostImpl.get]
  · simp [JReactHostInspectorTarget.onSetPausedInDebuggerMessage,
      JReactHostImpl.setPausedInDebuggerMessage, JReactHostImpl.get]
  · cases h : bridge.delegate_ <;>
      simp [ReactInstanceManagerInspectorTarget.onReload, TargetDelegate.onReload, callJava,
        Except.map, h]
  · cases h : bridge.delegate_ <;>
      simp [ReactInstanceManagerInspectorTarget.onSetPausedInDebuggerMessage,
        TargetDelegate.onSetPausedInDebuggerMessage, callJava, Except.map, h]

/-- C7 as stated fails in the bridge variant: the bridge that the constructor
builds from a null delegate reference leaves `getMetadata()` with a
null-reference failure instead of returning metadata. -/
theorem bridge_getMetadata_fails_without_delegate :
    ReactInstanceManagerInspectorTarget.getMetadata
        (ReactInstanceManagerInspectorTarget.live (some JExecutor.hostThread) none true 1 []).1
        (ReactInstanceManagerInspectorTarget.live (some JExecutor.hostThread) none true 1 []).2 =
      .error Failure.nullReference := by
  rfl

/-- C7, amended: in the bridgeless variant `getMetadata()` always returns
normally, and with the host reference absent it returns the four optional
fields absent and the fixed `integrationName`, leaving the world as it was (the
metadata accessor of the host is not queried). In the bridge variant
`getMetadata()` has no absence check: it returns normally exactly when the
delegate reference is bound, and then it has queried the delegate once and the
`integrationName` is the fixed string of the variant. -/
theorem getMetadata_total_bridgeless
    (w : World) (host : JReactHostInspectorTarget)
    (inspectorTarget : Option HostTarget) (inspectorPageId : Option Int)
    (javaExecutor : Option JExecutor) (bridge : ReactInstanceManagerInspectorTarget) :
    (∃ r, JReactHostInspectorTarget.getMetadata host w = .ok r) ∧
    JReactHostInspectorTarget.getMetadata
        { javaReactHostImpl_ := none, javaExecutor_ := javaExecutor,
          inspectorTarget_ := inspectorTarget, inspectorPageId_ := inspectorPageId } w =
      .ok ({ appIdentifier := none
             deviceName := none
             integrationName := "Android Bridgeless (ReactHostImpl)"
             platform := none
             reactNativeVersion := none }, w) ∧
    ((∃ r, ReactInstanceManagerInspectorTarget.getMetadata bridge w = .ok r) ↔
      bridge.delegate_.isSome = true) ∧
    (∀ r, ReactInstanceManagerInspectorTarget.getMetadata bridge w = .ok r →
      r.1.integrationName = "Android Bridge (ReactInstanceManagerInspectorTarget)" ∧
      r.2 = w.emit Event.delegateGetMetadata) := by
  refine ⟨?_, ?_, ?_, ?_⟩
  · cases h : host.javaReactHostImpl_ <;>
      simp [JReactHostInspectorTarget.getMetadata, JReactHostImpl.get,
        JReactHostImpl.getHostMetadata, h]
  · simp [JReactHostInspectorTarget.getMetadata, JReactHostImpl.get]
  · cases h : bridge.delegate_ <;>
      simp [ReactInstanceManagerInspectorTarget.getMetadata, TargetDelegate.getMetadata,
        callJava, Except.map, h]
  · intro r hr
    cases h : bridge.delegate_ with
    | none =>
      simp [ReactInstanceManagerInspectorTarget.getMetadata, TargetDelegate.getMetadata,
        callJava, Except.map, h] at hr
    | some d =>
      simp [ReactInstanceManagerInspectorTarget.getMetadata, TargetDelegate.getMetadata,
        callJava, Except.map, h] at hr
      subst hr
      exact ⟨rfl, rfl⟩

/-- C7, amended, at a concrete input: a bridge with a delegate that reports an
empty map returns metadata whose `integrationName` is the fixed string. -/
theorem getMetadata_total_bridgeless_witness :
    ReactInstanceManagerInspectorTarget.getMetadata ⟨some ⟨[]⟩, none, none⟩
        (World.initial false 1) =
      .ok (⟨none, none, "Android Bridge (ReactInstanceManagerInspectorTarget)", none, none⟩,
        (World.initial false 1).emit Event.delegateGetMetadata) ∧
    (⟨none, none, "Android Bridge (ReactInstanceManagerInspectorTarget)", none, none⟩ :
        HostTargetMetadata).integrationName =
      "Android Bridge (ReactInstanceManagerInspectorTarget)" :=
  ⟨rfl, ((getMetadata_total_bridgeless (World.initial false 1) ⟨none, none, none, none⟩ none none
    none ⟨some ⟨[]⟩, none, none⟩).2.2.2
    (⟨none, none, "Android Bridge (ReactInstanceManagerInspectorTarget)", none, none⟩,
      (World.initial false 1).emit Event.delegateGetMetadata) rfl).1⟩

end facebook.react
